import Mathlib

/- Shallow embedding of src/form-limiter.js (Google Forms Limiter).

   Local time is modelled as a linear count of milliseconds on a fixed-offset
   timeline (no daylight-saving jumps), with millisecond 0 falling on a
   Thursday at 00:00, exactly as for the JavaScript Date epoch.  The Date
   getters and setters used by the source then correspond to arithmetic with
   the constants below: setSeconds(0) followed by setMilliseconds(0) truncates
   to the minute, setDate(getDate() + k) adds k days, and setHours / setMinutes
   replace the corresponding component, rolling overflow into later days the
   way JavaScript normalisation does. -/

def msPerMinute : Nat := 60000

def msPerHour : Nat := 3600000

def msPerDay : Nat := 86400000

def msPerWeek : Nat := 604800000

/-- Date.getDay: day of the week, 0 = Sunday; the epoch day is a Thursday (4). -/
def getDay (t : Nat) : Nat := (t / msPerDay + 4) % 7

/-- The weekdays array of the source (line 20). -/
def weekdays : List String :=
  ["Sunday", "Monday", "Tuesday", "Wednesday", "Thursday", "Friday", "Saturday"]

/-- JavaScript Array.prototype.indexOf: index of the first occurrence of s,
    or -1 when s does not occur. -/
def jsIndexOf : List String → String → Int
  | [], _ => -1
  | x :: xs, s =>
    if x = s then 0
    else
      let r := jsIndexOf xs s
      if r = -1 then -1 else r + 1

def DO_NOT_MAIL : Nat := 0

def MAIL_ON_OPEN : Nat := 1

def MAIL_ON_CLOSE : Nat := 2

def MAIL_ON_LIMIT : Nat := 4

def ALL_MAILS : Nat := MAIL_ON_OPEN ||| MAIL_ON_CLOSE ||| MAIL_ON_LIMIT

/-- A weekly rule as consumed by parseDate_: a weekday name and a time
    string of shape HH:MM (the shape FORM_OPEN and FORM_CLOSE have). -/
structure NextTrigger where
  day : String
  time : String

/-- String.prototype.substr(start, len), as a character list. -/
def jsSubstr (s : String) (start len : Nat) : List Char :=
  (s.data.drop start).take len

def jsStringToNatCore : List Char → Nat → Option Nat
  | [], acc => some acc
  | c :: cs, acc =>
    if c.isDigit then jsStringToNatCore cs (acc * 10 + (c.toNat - 48)) else none

/-- The number coercion JavaScript applies to a digit string (the argument of
    Date.setHours or Date.setMinutes); none models the not-a-number case. -/
def jsStringToNat (cs : List Char) : Option Nat := jsStringToNatCore cs 0

/-- nextWeekdayTime.substr(0, 2) of the source, coerced to a number when fed
    to Date.setHours. -/
def parseHours (nt : NextTrigger) : Option Nat := jsStringToNat (jsSubstr nt.time 0 2)

/-- nextWeekdayTime.substr(3, 2) of the source, coerced to a number when fed
    to Date.setMinutes. -/
def parseMinutes (nt : NextTrigger) : Option Nat := jsStringToNat (jsSubstr nt.time 3 2)

/-- Lines 178-183 of parseDate_: copy the base date, zero its seconds and
    milliseconds, jump forward (nextDayOfWeek + 7 - getDay) mod 7 days, then
    set the hours and the minutes components. -/
def naiveNext_ (baseDate : Nat) (nextDayOfWeek : Int) (hours minutes : Nat) : Nat :=
  let nextDate := baseDate / msPerMinute * msPerMinute
  let nextDate := nextDate + ((nextDayOfWeek + 7 - (getDay nextDate : Int)) % 7).toNat * msPerDay
  let nextDate := nextDate - nextDate % msPerDay + hours * msPerHour + nextDate % msPerHour
  nextDate - nextDate % msPerHour + minutes * msPerMinute

/-- parseDate_ (lines 169-189): resolve the next occurrence of a weekly rule
    from baseDate, adding a week when the candidate is not strictly in the
    future.  Returns none when a time component is not numeric: the source
    would build an invalid date there, and every later comparison against an
    invalid date is false. -/
def parseDate_ (baseDate : Nat) (nextTrigger : NextTrigger) : Option Nat :=
  let nextDayOfWeek := jsIndexOf weekdays nextTrigger.day
  match parseHours nextTrigger, parseMinutes nextTrigger with
  | some hours, some minutes =>
    let nextDate := naiveNext_ baseDate nextDayOfWeek hours minutes
    some (if nextDate ≤ baseDate then nextDate + msPerWeek else nextDate)
  | _, _ => none

inductive TriggerKind where
  | timeBased (fireAt : Nat)
  | onFormSubmit
deriving DecidableEq

structure Trigger where
  handler : String
  kind : TriggerKind
deriving DecidableEq

/-- The observable state of the Apps Script project: the trigger registry,
    the accepting-responses flag of the form, the number of responses so far,
    and the mails sent so far (their subjects, in sending order). -/
structure World where
  triggers : List Trigger
  accepting : Bool
  responses : Nat
  mails : List String

/-- The user settings of the source: FORM_OPEN, FORM_CLOSE (the empty string
    meaning absent, modelled as none), RESPONSE_COUNT (likewise) and
    MAIL_NOTIFY. -/
structure Config where
  formOpen : Option NextTrigger
  formClose : Option NextTrigger
  responseCount : Option Nat
  mailNotify : Nat

/-- deleteTriggers_ (lines 61-66): delete every trigger of the project. -/
def deleteTriggers_ (w : World) : World := { w with triggers := [] }

/-- ScriptApp.newTrigger(...).create(): register one more trigger. -/
def newTrigger (w : World) (t : Trigger) : World := { w with triggers := w.triggers ++ [t] }

/-- informUser_ (lines 69-72): mail the form owner. -/
def informUser_ (subject : String) (w : World) : World := { w with mails := w.mails ++ [subject] }

/-- isFormAcceptingResponses (lines 131-134). -/
def isFormAcceptingResponses (w : World) : Bool := w.accepting

/-- openForm (lines 139-145). -/
def openForm (cfg : Config) (w : World) : World :=
  let w := { w with accepting := true }
  if cfg.mailNotify &&& MAIL_ON_OPEN ≠ 0 then
    informUser_ ("Your Google Form is now accepting responses") w
  else w

/-- closeForm (lines 150-156). -/
def closeForm (cfg : Config) (w : World) : World :=
  let w := { w with accepting := false }
  if cfg.mailNotify &&& MAIL_ON_CLOSE ≠ 0 then
    informUser_ ("Your Google Form is no longer accepting responses") w
  else w

/-- checkLimit (lines 159-166).  The source compares the response count with
    RESPONSE_COUNT using JavaScript greater-or-equal, which coerces the empty
    string to 0; getD 0 reproduces that coercion. -/
def checkLimit (cfg : Config) (w : World) : World :=
  if w.responses ≥ cfg.responseCount.getD 0 then
    let w :=
      if cfg.mailNotify &&& MAIL_ON_LIMIT ≠ 0 then
        informUser_ ("Your Google Form reached the response limit") w
      else w
    closeForm cfg w
  else w

/-- weeklyReInit (lines 74-125): clear all triggers, resolve and arm the next
    open and close edges, reconcile the current state when both rules are
    present, arm the limit watcher, and re-arm itself one week out.  A none
    from parseDate_ stands for an invalid date; every comparison involving it
    is false in JavaScript, so no trigger is armed from it and shouldBeOpen
    evaluates to false. -/
def weeklyReInit (cfg : Config) (now : Nat) (w0 : World) : World :=
  let w1 := deleteTriggers_ w0
  let controlOpen := cfg.formOpen.isSome
  let nextOpenDateTime := cfg.formOpen.bind (fun fo => parseDate_ now fo)
  let w2 :=
    match nextOpenDateTime with
    | some nod => if now < nod then newTrigger w1 ⟨"openForm", TriggerKind.timeBased nod⟩ else w1
    | none => w1
  let w3 :=
    match cfg.formClose with
    | none => w2
    | some fc =>
      let nextCloseDateTime := parseDate_ now fc
      let w :=
        match nextCloseDateTime with
        | some ncd =>
          if now < ncd then newTrigger w2 ⟨"closeForm", TriggerKind.timeBased ncd⟩ else w2
        | none => w2
      if controlOpen then
        let shouldBeOpen :=
          match nextCloseDateTime, nextOpenDateTime with
          | some c, some o => decide (c ≤ o)
          | _, _ => false
        if shouldBeOpen && !(isFormAcceptingResponses w) then openForm cfg w
        else if !shouldBeOpen && isFormAcceptingResponses w then closeForm cfg w
        else w
      else w
  let w4 :=
    match cfg.responseCount with
    | some _ => newTrigger w3 ⟨"checkLimit", TriggerKind.onFormSubmit⟩
    | none => w3
  newTrigger w4 ⟨"weeklyReInit", TriggerKind.timeBased (now + msPerWeek)⟩

/-- The open-edge trigger a cycle arms, when it arms one. -/
def openTriggerList (cfg : Config) (now : Nat) : List Trigger :=
  match cfg.formOpen.bind (fun fo => parseDate_ now fo) with
  | some nod => if now < nod then [⟨"openForm", TriggerKind.timeBased nod⟩] else []
  | none => []

/-- The close-edge trigger a cycle arms, when it arms one. -/
def closeTriggerList (cfg : Config) (now : Nat) : List Trigger :=
  match cfg.formClose.bind (fun fc => parseDate_ now fc) with
  | some ncd => if now < ncd then [⟨"closeForm", TriggerKind.timeBased ncd⟩] else []
  | none => []

/-- The limit-watcher trigger a cycle arms, when it arms one. -/
def limitTriggerList (cfg : Config) : List Trigger :=
  match cfg.responseCount with
  | some _ => [⟨"checkLimit", TriggerKind.onFormSubmit⟩]
  | none => []

/-- Closed form of the candidate computed by lines 178-183: start of the base
    day, plus the weekday offset in days, plus the requested hours and
    minutes. -/
theorem naiveNext_eq (baseDate : Nat) (d : Int) (hours minutes : Nat) :
    naiveNext_ baseDate d hours minutes
      = baseDate - baseDate % msPerDay
        + ((d + 7 - (getDay baseDate : Int)) % 7).toNat * msPerDay
        + hours * msPerHour + minutes * msPerMinute := by
  simp only [naiveNext_, getDay, msPerMinute, msPerHour, msPerDay]
  omega

theorem newTrigger_accepting (w : World) (t : Trigger) :
    (newTrigger w t).accepting = w.accepting := rfl

theorem newTrigger_triggers (w : World) (t : Trigger) :
    (newTrigger w t).triggers = w.triggers ++ [t] := rfl

theorem newTrigger_mails (w : World) (t : Trigger) : (newTrigger w t).mails = w.mails := rfl

theorem openForm_triggers (cfg : Config) (w : World) : (openForm cfg w).triggers = w.triggers := by
  simp only [openForm, informUser_]
  split <;> rfl

theorem closeForm_triggers (cfg : Config) (w : World) : (closeForm cfg w).triggers = w.triggers := by
  simp only [closeForm, informUser_]
  split <;> rfl

theorem openForm_accepting (cfg : Config) (w : World) : (openForm cfg w).accepting = true := by
  simp only [openForm, informUser_]
  split <;> rfl

theorem closeForm_accepting (cfg : Config) (w : World) : (closeForm cfg w).accepting = false := by
  simp only [closeForm, informUser_]
  split <;> rfl

theorem triggers_ite (c : Prop) [Decidable c] (w1 w2 : World) :
    (if c then w1 else w2).triggers = if c then w1.triggers else w2.triggers := by
  split <;> rfl

theorem accepting_ite (c : Prop) [Decidable c] (w1 w2 : World) :
    (if c then w1 else w2).accepting = if c then w1.accepting else w2.accepting := by
  split <;> rfl

theorem mails_ite (c : Prop) [Decidable c] (w1 w2 : World) :
    (if c then w1 else w2).mails = if c then w1.mails else w2.mails := by
  split <;> rfl

theorem weeklyReInit_triggers_openNone (cfg : Config) (now : Nat) (w : World)
    (hfo : cfg.formOpen = none) :
    (weeklyReInit cfg now w).triggers =
      openTriggerList cfg now ++ closeTriggerList cfg now ++ limitTriggerList cfg
        ++ [⟨"weeklyReInit", TriggerKind.timeBased (now + msPerWeek)⟩] := by
  unfold weeklyReInit openTriggerList closeTriggerList limitTriggerList
  simp only [hfo, Option.none_bind, Option.isSome_none]
  cases hfc : cfg.formClose with
  | none =>
    cases hrc : cfg.responseCount <;>
      simp [deleteTriggers_, newTrigger_triggers]
  | some fc =>
    cases hpc : parseDate_ now fc with
    | none =>
      cases hrc : cfg.responseCount <;>
        simp [hpc, deleteTriggers_, newTrigger_triggers]
    | some c =>
      cases hrc : cfg.responseCount <;> by_cases hlt : now < c <;>
        simp [hpc, hlt, deleteTriggers_, newTrigger_triggers]

theorem weeklyReInit_triggers_openInvalid (cfg : Config) (now : Nat) (w : World)
    (fo : NextTrigger) (hfo : cfg.formOpen = some fo) (hpo : parseDate_ now fo = none) :
    (weeklyReInit cfg now w).triggers =
      openTriggerList cfg now ++ closeTriggerList cfg now ++ limitTriggerList cfg
        ++ [⟨"weeklyReInit", TriggerKind.timeBased (now + msPerWeek)⟩] := by
  unfold weeklyReInit openTriggerList closeTriggerList limitTriggerList
  simp only [hfo, Option.some_bind, Option.isSome_some, hpo]
  cases hfc : cfg.formClose with
  | none =>
    cases hrc : cfg.responseCount <;>
      simp [deleteTriggers_, newTrigger_triggers]
  | some fc =>
    cases hpc : parseDate_ now fc with
    | none =>
      cases hrc : cfg.responseCount <;>
        (simp only [hpc, deleteTriggers_, newTrigger_triggers, triggers_ite,
          openForm_triggers, closeForm_triggers, ite_self]
         simp [hpc])
    | some c =>
      cases hrc : cfg.responseCount <;> by_cases hlt : now < c <;>
        (simp only [hpc, deleteTriggers_, newTrigger_triggers, triggers_ite,
          openForm_triggers, closeForm_triggers, ite_self]
         simp [hpc, hlt])

theorem weeklyReInit_triggers_openSome (cfg : Config) (now : Nat) (w : World)
    (fo : NextTrigger) (o : Nat) (hfo : cfg.formOpen = some fo)
    (hpo : parseDate_ now fo = some o) :
    (weeklyReInit cfg now w).triggers =
      openTriggerList cfg now ++ closeTriggerList cfg now ++ limitTriggerList cfg
        ++ [⟨"weeklyReInit", TriggerKind.timeBased (now + msPerWeek)⟩] := by
  unfold weeklyReInit openTriggerList closeTriggerList limitTriggerList
  simp only [hfo, Option.some_bind, Option.isSome_some, hpo]
  cases hfc : cfg.formClose with
  | none =>
    cases hrc : cfg.responseCount <;> by_cases holt : now < o <;>
      (simp only [deleteTriggers_, newTrigger_triggers, triggers_ite,
        openForm_triggers, closeForm_triggers, ite_self]
       simp [holt])
  | some fc =>
    cases hpc : parseDate_ now fc with
    | none =>
      cases hrc : cfg.responseCount <;> by_cases holt : now < o <;>
        (simp only [hpc, deleteTriggers_, newTrigger_triggers, triggers_ite,
          openForm_triggers, closeForm_triggers, ite_self]
         simp [hpc, holt])
    | some c =>
      cases hrc : cfg.responseCount <;> by_cases holt : now < o <;> by_cases hlt : now < c <;>
        (simp only [hpc, deleteTriggers_, newTrigger_triggers, triggers_ite,
          openForm_triggers, closeForm_triggers, ite_self]
         simp [hpc, holt, hlt])

/-- Every cycle leaves exactly the four optional fresh triggers behind,
    whatever the prior world was. -/
theorem weeklyReInit_triggers (cfg : Config) (now : Nat) (w : World) :
    (weeklyReInit cfg now w).triggers =
      openTriggerList cfg now ++ closeTriggerList cfg now ++ limitTriggerList cfg
        ++ [⟨"weeklyReInit", TriggerKind.timeBased (now + msPerWeek)⟩] := by
  cases hfo : cfg.formOpen with
  | none => exact weeklyReInit_triggers_openNone cfg now w hfo
  | some fo =>
    cases hpo : parseDate_ now fo with
    | none => exact weeklyReInit_triggers_openInvalid cfg now w fo hfo hpo
    | some o => exact weeklyReInit_triggers_openSome cfg now w fo o hfo hpo

theorem openTriggerList_shape (cfg : Config) (now : Nat) :
    openTriggerList cfg now = [] ∨
      ∃ nod, openTriggerList cfg now = [⟨"openForm", TriggerKind.timeBased nod⟩] := by
  unfold openTriggerList
  cases cfg.formOpen.bind fun fo => parseDate_ now fo with
  | none => exact Or.inl rfl
  | some nod =>
    by_cases hlt : now < nod
    · exact Or.inr ⟨nod, by simp [hlt]⟩
    · exact Or.inl (by simp [hlt])

theorem closeTriggerList_shape (cfg : Config) (now : Nat) :
    closeTriggerList cfg now = [] ∨
      ∃ ncd, closeTriggerList cfg now = [⟨"closeForm", TriggerKind.timeBased ncd⟩] := by
  unfold closeTriggerList
  cases cfg.formClose.bind fun fc => parseDate_ now fc with
  | none => exact Or.inl rfl
  | some ncd =>
    by_cases hlt : now < ncd
    · exact Or.inr ⟨ncd, by simp [hlt]⟩
    · exact Or.inl (by simp [hlt])

theorem limitTriggerList_shape (cfg : Config) :
    limitTriggerList cfg = [] ∨
      limitTriggerList cfg = [⟨"checkLimit", TriggerKind.onFormSubmit⟩] := by
  unfold limitTriggerList
  cases cfg.responseCount with
  | none => exact Or.inl rfl
  | some n => exact Or.inr rfl

/-- C1: for every base timestamp and every rule whose time parses, parseDate_
    returns a timestamp strictly greater than the base, and when the naively
    computed occurrence equals the base exactly the result is the naive
    occurrence pushed forward a full week. -/
theorem parseDate_strictly_after_base (baseDate : Nat) (nt : NextTrigger) (h m v : Nat)
    (hh : parseHours nt = some h) (hm : parseMinutes nt = some m)
    (hv : parseDate_ baseDate nt = some v) :
    baseDate < v ∧
      (naiveNext_ baseDate (jsIndexOf weekdays nt.day) h m = baseDate →
        v = baseDate + msPerWeek) := by
  simp only [parseDate_, hh, hm, Option.some.injEq] at hv
  rw [naiveNext_eq] at hv ⊢
  simp only [msPerWeek, msPerDay, msPerHour, msPerMinute] at *
  split at hv <;> omega

theorem parseDate_strictly_after_base_witness :
    (0 : Nat) < 298800000 ∧
      (naiveNext_ 0 (jsIndexOf weekdays ("Sunday")) 11 0 = 0 →
        298800000 = 0 + msPerWeek) :=
  parseDate_strictly_after_base 0 ⟨"Sunday", "11:00"⟩ 11 0 298800000
    (by decide) (by decide) (by decide)

/-- C2: once past the first resolved occurrence, resolving again from it
    always lands exactly one week later, for every rule with a valid
    HH:MM time. -/
theorem parseDate_weekly_periodic (baseDate : Nat) (nt : NextTrigger) (h m v1 v2 : Nat)
    (hh : parseHours nt = some h) (hm : parseMinutes nt = some m)
    (hh24 : h < 24) (hm60 : m < 60)
    (hv1 : parseDate_ baseDate nt = some v1)
    (hv2 : parseDate_ v1 nt = some v2) :
    v2 = v1 + msPerWeek := by
  simp only [parseDate_, hh, hm, Option.some.injEq] at hv1 hv2
  rw [naiveNext_eq] at hv1 hv2
  simp only [getDay, msPerWeek, msPerDay, msPerHour, msPerMinute] at *
  split at hv1 <;> split at hv2 <;> omega

theorem parseDate_weekly_periodic_witness :
    parseDate_ 0 ⟨"Sunday", "11:00"⟩ = some 298800000
    ∧ parseDate_ 298800000 ⟨"Sunday", "11:00"⟩ = some 903600000
    ∧ (903600000 : Nat) = 298800000 + msPerWeek :=
  ⟨by decide, by decide,
    parseDate_weekly_periodic 0 ⟨"Sunday", "11:00"⟩ 11 0 298800000 903600000
      (by decide) (by decide) (by decide) (by decide) (by decide) (by decide)⟩

/-- C3: when the rule weekday equals the base weekday and the rule time has
    already elapsed on the base day (or equals the base time with seconds
    truncated), the result is the start of the base day plus the rule time
    plus exactly seven days, with zero seconds and milliseconds. -/
theorem parseDate_same_day_elapsed (baseDate : Nat) (nt : NextTrigger) (h m : Nat)
    (hh : parseHours nt = some h) (hm : parseMinutes nt = some m)
    (hd : jsIndexOf weekdays nt.day = (getDay baseDate : Int))
    (hh24 : h < 24) (hm60 : m < 60)
    (helapsed : h * msPerHour + m * msPerMinute ≤ baseDate % msPerDay) :
    parseDate_ baseDate nt
      = some (baseDate - baseDate % msPerDay + h * msPerHour + m * msPerMinute + msPerWeek) := by
  simp only [parseDate_, hh, hm, Option.some.injEq]
  rw [naiveNext_eq, hd]
  simp only [Option.some.injEq, msPerWeek, msPerDay, msPerHour, msPerMinute] at *
  split <;> omega

theorem parseDate_same_day_elapsed_witness :
    parseDate_ 302400000 ⟨"Sunday", "11:00"⟩
      = some (302400000 - 302400000 % msPerDay + 11 * msPerHour + 0 * msPerMinute + msPerWeek) :=
  parseDate_same_day_elapsed 302400000 ⟨"Sunday", "11:00"⟩ 11 0
    (by decide) (by decide) (by decide) (by decide) (by decide) (by decide)

/-- C4: when both rules are present and resolve, the accepting state right
    after a cycle equals the comparison nextClose less-or-equal nextOpen,
    whatever the prior state was. -/
theorem weeklyReInit_reconciles_state (cfg : Config) (now : Nat) (w : World)
    (fo fc : NextTrigger) (o c : Nat)
    (ho : cfg.formOpen = some fo) (hc : cfg.formClose = some fc)
    (hpo : parseDate_ now fo = some o) (hpc : parseDate_ now fc = some c) :
    (weeklyReInit cfg now w).accepting = decide (c ≤ o) := by
  cases hrc : cfg.responseCount <;>
    simp only [weeklyReInit, ho, hc, hpo, hpc, hrc, Option.isSome_some, Option.some_bind,
      deleteTriggers_, newTrigger_accepting, accepting_ite, isFormAcceptingResponses] <;>
    by_cases hco : c ≤ o <;> by_cases ha : w.accepting <;>
    simp [hco, ha, openForm_accepting, closeForm_accepting, newTrigger_accepting, accepting_ite]

theorem weeklyReInit_reconciles_state_witness :
    (weeklyReInit ⟨some ⟨"Sunday", "11:00"⟩, some ⟨"Sunday", "13:00"⟩, none, 0⟩ 0
        ⟨[], true, 0, []⟩).accepting = decide ((306000000 : Nat) ≤ 298800000) :=
  weeklyReInit_reconciles_state _ 0 _ _ _ 298800000 306000000 rfl rfl (by decide) (by decide)

/-- C5: when the open rule is absent and only the close rule is present, the
    cycle performs no state correction and sends no mail: the accepting flag
    and the mail log are unchanged, whatever the current state is. -/
theorem weeklyReInit_no_open_rule_no_correction (cfg : Config) (now : Nat) (w : World)
    (ho : cfg.formOpen = none) :
    (weeklyReInit cfg now w).accepting = w.accepting
    ∧ (weeklyReInit cfg now w).mails = w.mails := by
  unfold weeklyReInit
  simp only [ho, Option.none_bind, Option.isSome_none]
  cases hfc : cfg.formClose with
  | none =>
    cases hrc : cfg.responseCount <;>
      simp [deleteTriggers_, newTrigger_accepting, newTrigger_mails]
  | some fc =>
    cases hpc : parseDate_ now fc with
    | none =>
      cases hrc : cfg.responseCount <;>
        simp [hpc, deleteTriggers_, newTrigger_accepting, newTrigger_mails]
    | some ncd =>
      cases hrc : cfg.responseCount <;>
        by_cases hlt : now < ncd <;>
        simp [hpc, hlt, deleteTriggers_, newTrigger_accepting, newTrigger_mails]

theorem weeklyReInit_no_open_rule_no_correction_witness :
    (weeklyReInit ⟨none, some ⟨"Sunday", "13:00"⟩, none, 0⟩ 0 ⟨[], true, 3, []⟩).accepting
        = true
    ∧ (weeklyReInit ⟨none, some ⟨"Sunday", "13:00"⟩, none, 0⟩ 0 ⟨[], true, 3, []⟩).mails
        = [] :=
  weeklyReInit_no_open_rule_no_correction _ 0 _ rfl

/-- C6: after a cycle the trigger registry does not depend on any trigger
    that existed before the cycle, and it holds at most one open trigger, one
    close trigger, one limit watcher and one self-reinit trigger. -/
theorem weeklyReInit_trigger_registry_invariant (cfg : Config) (now : Nat) (w w2 : World) :
    (weeklyReInit cfg now w).triggers = (weeklyReInit cfg now w2).triggers
    ∧ ((weeklyReInit cfg now w).triggers.countP fun t => t.handler == "openForm") ≤ 1
    ∧ ((weeklyReInit cfg now w).triggers.countP fun t => t.handler == "closeForm") ≤ 1
    ∧ ((weeklyReInit cfg now w).triggers.countP fun t => t.handler == "checkLimit") ≤ 1
    ∧ ((weeklyReInit cfg now w).triggers.countP fun t => t.handler == "weeklyReInit") ≤ 1 := by
  refine ⟨by rw [weeklyReInit_triggers, weeklyReInit_triggers], ?_, ?_, ?_, ?_⟩ <;>
    rw [weeklyReInit_triggers] <;>
    rcases openTriggerList_shape cfg now with hO | ⟨nod, hO⟩ <;>
    rcases closeTriggerList_shape cfg now with hC | ⟨ncd, hC⟩ <;>
    rcases limitTriggerList_shape cfg with hL | hL <;>
    simp [hO, hC, hL, List.countP_append, List.countP_cons]

/-- C7: contrary to the fail-fast specification, an unknown weekday name is
    not rejected: indexOf yields -1, parseDate_ silently resolves a date (the
    offset behaves like weekday index 6) and the cycle arms triggers from it.
    The source itself carries a TODO acknowledging the missing check. -/
theorem invalid_weekday_silently_arms_trigger :
    jsIndexOf weekdays ("Funday") = -1
    ∧ parseDate_ 0 ⟨"Funday", "10:00"⟩ = some 208800000
    ∧ (weeklyReInit ⟨some ⟨"Funday", "10:00"⟩, none, none, 0⟩ 0 ⟨[], false, 0, []⟩).triggers
        = [⟨"openForm", TriggerKind.timeBased 208800000⟩,
           ⟨"weeklyReInit", TriggerKind.timeBased 604800000⟩] :=
  ⟨by decide, by decide, by decide⟩

/-- C8: with a configured limit and the full notify mask, a submission event
    at or above the limit closes the form and sends exactly two mails, the
    limit-reached mail strictly before the closing mail; below the limit the
    watcher changes nothing. -/
theorem checkLimit_at_limit_closes_and_notifies (cfg : Config) (w : World) (limit : Nat)
    (hrc : cfg.responseCount = some limit) (hmask : cfg.mailNotify = ALL_MAILS) :
    (limit ≤ w.responses →
      (checkLimit cfg w).accepting = false
      ∧ (checkLimit cfg w).mails
          = w.mails ++ ["Your Google Form reached the response limit",
              "Your Google Form is no longer accepting responses"]
      ∧ (checkLimit cfg w).triggers = w.triggers
      ∧ (checkLimit cfg w).responses = w.responses)
    ∧ (w.responses < limit → checkLimit cfg w = w) := by
  constructor
  · intro hge
    simp [checkLimit, closeForm, informUser_, hrc, hmask, ALL_MAILS,
      MAIL_ON_OPEN, MAIL_ON_CLOSE, MAIL_ON_LIMIT, hge]
  · intro hlt
    simp [checkLimit, hrc, Nat.not_le.mpr hlt]

theorem checkLimit_at_limit_closes_and_notifies_witness :
    (checkLimit ⟨none, none, some 50, ALL_MAILS⟩ ⟨[], true, 50, []⟩).accepting = false
    ∧ (checkLimit ⟨none, none, some 50, ALL_MAILS⟩ ⟨[], true, 50, []⟩).mails
        = ["Your Google Form reached the response limit",
           "Your Google Form is no longer accepting responses"] := by
  have h := (checkLimit_at_limit_closes_and_notifies ⟨none, none, some 50, ALL_MAILS⟩
    ⟨[], true, 50, []⟩ 50 rfl rfl).1 (by decide)
  exact ⟨h.1, h.2.1⟩

/-- C9: openForm always leaves the form accepting, so a second call changes
    the state no further, yet it appends its mail on every invocation when
    the mask includes the open flag; closeForm is symmetric. -/
theorem openForm_closeForm_idempotent_notify (cfg : Config) (w : World)
    (hmo : cfg.mailNotify &&& MAIL_ON_OPEN ≠ 0) (hmc : cfg.mailNotify &&& MAIL_ON_CLOSE ≠ 0) :
    (openForm cfg w).accepting = true
    ∧ (openForm cfg (openForm cfg w)).accepting = (openForm cfg w).accepting
    ∧ (openForm cfg w).mails = w.mails ++ ["Your Google Form is now accepting responses"]
    ∧ (closeForm cfg w).accepting = false
    ∧ (closeForm cfg (closeForm cfg w)).accepting = (closeForm cfg w).accepting
    ∧ (closeForm cfg w).mails = w.mails ++ ["Your Google Form is no longer accepting responses"] := by
  simp [openForm, closeForm, informUser_, hmo, hmc]

theorem openForm_closeForm_idempotent_notify_witness :
    (openForm ⟨none, none, none, ALL_MAILS⟩ ⟨[], false, 0, []⟩).accepting = true
    ∧ (closeForm ⟨none, none, none, ALL_MAILS⟩ ⟨[], false, 0, []⟩).mails
        = ["Your Google Form is no longer accepting responses"] := by
  have h := openForm_closeForm_idempotent_notify ⟨none, none, none, ALL_MAILS⟩
    ⟨[], false, 0, []⟩ (by decide) (by decide)
  exact ⟨h.1, h.2.2.2.2.2⟩

/-- C10: the clear step deletes every trigger of the project, so a trigger
    owned by another component, with a handler this system never registers,
    is gone after deleteTriggers_ runs. -/
theorem deleteTriggers_deletes_foreign_triggers (w : World) (t : Trigger)
    (hmem : t ∈ w.triggers)
    (hforeign : t.handler ≠ "openForm" ∧ t.handler ≠ "closeForm"
      ∧ t.handler ≠ "checkLimit" ∧ t.handler ≠ "weeklyReInit") :
    (deleteTriggers_ w).triggers = [] ∧ t ∉ (deleteTriggers_ w).triggers := by
  simp [deleteTriggers_]

theorem deleteTriggers_deletes_foreign_triggers_witness :
    (deleteTriggers_ ⟨[⟨"other", TriggerKind.onFormSubmit⟩], true, 0, []⟩).triggers = []
    ∧ (⟨"other", TriggerKind.onFormSubmit⟩ : Trigger) ∉
        (deleteTriggers_ ⟨[⟨"other", TriggerKind.onFormSubmit⟩], true, 0, []⟩).triggers :=
  deleteTriggers_deletes_foreign_triggers ⟨[⟨"other", TriggerKind.onFormSubmit⟩], true, 0, []⟩
    ⟨"other", TriggerKind.onFormSubmit⟩ (by decide) (by decide)
